import Mathlib

/-!
The geotor package: exit-list parser, Tor hash and lookup service.

A shallow embedding of `torupdater.go`, `tor.go` and `geo.go`.

* A Go `string` is a byte sequence; it is modelled as `List Char`, one `Char` per byte.
* The body handed to `tokenizeresponse` is given as the list of its lines, each ended in
  the body by a newline or, the last one, by the end of the body, and is read to its end
  without a read error; `scannerLines` gives the tokens `bufio.Scanner` yields for it.
* A Go call ends with a value, with a returned `error`, with a run-time panic, or it
  blocks for ever on a channel; the last three are the constructors of `Stop`.
* `net.ParseIP`, `net.IP.String` and `time.Parse` belong to the Go standard library;
  they are fields of `Lib` and every definition is parametric in them.
-/

namespace Geotor

/-! ## Strings -/

/-- Go `string`. -/
abbrev GoString := List Char

/-- The ways a Go call can end without a normal result. -/
inductive Stop where
  /-- a non-nil `error` was returned (`errors.New msg`) -/
  | err (msg : String)
  /-- run-time panic: slice or index out of range, nil pointer dereference -/
  | panic
  /-- the goroutine waits for ever on a channel operation -/
  | blocked
  deriving DecidableEq, Repr

/-- `strings.HasPrefix(s, pre)`. -/
def HasPrefix (s pre : GoString) : Bool := pre.isPrefixOf s

/-- The slice expression `s[n:]`: panics when `n > len(s)`. -/
def sliceFrom (s : GoString) (n : Nat) : Except Stop GoString :=
  if n ≤ s.length then .ok (s.drop n) else .error .panic

/-- The index expression `xs[i]`: panics when `i >= len(xs)`. -/
def index {α : Type} (xs : List α) (i : Nat) : Except Stop α :=
  match xs.get? i with
  | some x => .ok x
  | none => .error .panic

/-- `strings.SplitAfter(s, sep)` for a one-byte separator: `s` is cut after every
occurrence of `sep`; the pieces keep their separator and the last piece is what
follows the last separator (possibly empty). -/
def SplitAfter : GoString → Char → List GoString
  | [], _ => [[]]
  | c :: cs, sep =>
    if c = sep then [c] :: SplitAfter cs sep
    else
      match SplitAfter cs sep with
      | [] => [[c]]
      | p :: ps => (c :: p) :: ps

/-- `strings.Trim(s, cutset)`: leading and trailing bytes of `cutset` removed. -/
def Trim (s cutset : GoString) : GoString :=
  ((s.dropWhile (fun c => decide (c ∈ cutset))).reverse.dropWhile
    (fun c => decide (c ∈ cutset))).reverse

def kwExitNode : GoString := ['E', 'x', 'i', 't', 'N', 'o', 'd', 'e']
def kwPublished : GoString := ['P', 'u', 'b', 'l', 'i', 's', 'h', 'e', 'd']
def kwLastStatus : GoString := ['L', 'a', 's', 't', 'S', 't', 'a', 't', 'u', 's']
def kwExitAddress : GoString := ['E', 'x', 'i', 't', 'A', 'd', 'd', 'r', 'e', 's', 's']

/-! ## tor.go: nodes -/

/-- The standard-library functions the package calls on addresses and times.
`I` stands for `net.IP` and `T` for `time.Time`. -/
structure Lib (I T : Type) where
  /-- `net.ParseIP` (the nil address is a value of `I`) -/
  ParseIP : GoString → I
  /-- `net.IP.String` -/
  IPString : I → GoString
  /-- `time.Parse("2006-01-02 15:04:05", t)`, `none` when it returns an error -/
  TimeParse : GoString → Option T
  /-- `time.Time{}` -/
  zeroTime : T

/-- `type ExitAddress struct`. -/
structure ExitAddress (I T : Type) where
  IP : I
  Date : T
  deriving DecidableEq, Repr

/-- `type TorNode struct`. -/
structure TorNode (I T : Type) where
  NodeId : GoString
  Published : T
  Updated : T
  Addresses : List (ExitAddress I T)
  deriving DecidableEq, Repr

section Parser

variable {I T : Type}

/-- `NewTorNode()`. -/
def NewTorNode (L : Lib I T) : TorNode I T :=
  { NodeId := [], Published := L.zeroTime, Updated := L.zeroTime, Addresses := [] }

/-! ## torupdater.go: the exit-list parser -/

def stateNode : Nat := 0
def statePublished : Nat := 1
def stateUpdated : Nat := 2
def stateAddress : Nat := 3

/-- `parsetortime(t)`: the parsed time, or the zero time when parsing fails. -/
def parsetortime (L : Lib I T) (t : GoString) : T :=
  match L.TimeParse t with
  | some timestamp => timestamp
  | none => L.zeroTime

/-- The variables `state`, `node` and `ret` that the loop of `tokenizeresponse`
carries from one line to the next. -/
structure Scan (I T : Type) where
  state : Nat
  node : TorNode I T
  ret : List (TorNode I T)
  deriving DecidableEq, Repr

/-- Body of `case stateNode:`; the `ExitNode` branch of `case stateAddress:` falls
through into it. -/
def caseStateNode (s : Scan I T) (line : GoString) : Except Stop (Scan I T) :=
  if HasPrefix line kwExitNode then do
    let id ← sliceFrom line 9
    pure { s with node := { s.node with NodeId := id }, state := statePublished }
  else .error (.err "the ExitNode prefix not detected")

/-- One iteration of `for scanner.Scan()`: the `switch state` applied to `line`. -/
def scanLine (L : Lib I T) (s : Scan I T) (line : GoString) : Except Stop (Scan I T) :=
  if s.state = statePublished then
    if HasPrefix line kwPublished then do
      let t ← sliceFrom line 10
      pure { s with node := { s.node with Published := parsetortime L t },
                    state := stateUpdated }
    else .error (.err "the Published prefix not detected")
  else if s.state = stateUpdated then
    if HasPrefix line kwLastStatus then do
      let t ← sliceFrom line 11
      pure { s with node := { s.node with Updated := parsetortime L t },
                    state := stateAddress }
    else .error (.err "the LastStatus prefix not detected")
  else if s.state = stateAddress then
    if HasPrefix line kwExitAddress then do
      let parts := SplitAfter line ' '
      let p1 ← index parts 1
      let p2 ← index parts 2
      let p3 ← index parts 3
      let ip : ExitAddress I T :=
        { IP := L.ParseIP (Trim p1 [' ']), Date := parsetortime L (p2 ++ p3) }
      pure { s with node := { s.node with Addresses := s.node.Addresses ++ [ip] } }
    else if HasPrefix line kwExitNode then
      caseStateNode { s with ret := s.ret ++ [s.node], node := NewTorNode L,
                             state := stateNode } line
    else .error (.err "no transition from address state found")
  else if s.state = stateNode then
    caseStateNode s line
  else .error (.err "state error")

/-- The loop `for scanner.Scan() { ... }` over the lines of the body. -/
def scanLines (L : Lib I T) : Scan I T → List GoString → Except Stop (Scan I T)
  | s, [] => .ok s
  | s, line :: rest =>
    match scanLine L s line with
    | .ok s' => scanLines L s' rest
    | .error e => .error e

/-- `bufio.MaxScanTokenSize`: the size of the largest buffer of a scanner made by
`bufio.NewScanner`. -/
def MaxScanTokenSize : Nat := 64 * 1024

/-- `dropCR(data)` of package `bufio`: a final carriage return is removed. -/
def dropCR (data : GoString) : GoString :=
  if data.getLast? = some (Char.ofNat 13) then data.dropLast else data

/-- The tokens `scanner.Scan()` and `scanner.Text()` yield for a body given as its
lines. `bufio.ScanLines` yields every line without its final carriage return. A line of
`MaxScanTokenSize` bytes or more fills the buffer before its newline is read: `Scan`
returns false there, the loop ends, and `tokenizeresponse` never reads `scanner.Err()`. -/
def scannerLines (body : List GoString) : List GoString :=
  (body.takeWhile (fun line => decide (line.length < MaxScanTokenSize))).map dropCR

/-- `tokenizeresponse(body)`. -/
def tokenizeresponse (L : Lib I T) (body : List GoString) :
    Except Stop (List (TorNode I T)) :=
  match scanLines L { state := stateNode, node := NewTorNode L, ret := [] }
      (scannerLines body) with
  | .error e => .error e
  | .ok s =>
    if s.state = stateAddress then .ok (s.ret ++ [s.node])
    else .error (.err "parser ended in an incorrect state")

/-! ### Well-formed exit lists -/

/-- One `ExitAddress <ip> <date> <time>` line. -/
structure AddressEntry where
  ip : GoString
  date : GoString
  time : GoString
  deriving DecidableEq, Repr

/-- One complete record of the exit list. -/
structure ExitRecord where
  id : GoString
  published : GoString
  lastStatus : GoString
  addresses : List AddressEntry
  deriving DecidableEq, Repr

def nodeLine (id : GoString) : GoString := kwExitNode ++ ' ' :: id
def publishedLine (ts : GoString) : GoString := kwPublished ++ ' ' :: ts
def lastStatusLine (ts : GoString) : GoString := kwLastStatus ++ ' ' :: ts
def addressLine (a : AddressEntry) : GoString :=
  kwExitAddress ++ ' ' :: (a.ip ++ ' ' :: (a.date ++ ' ' :: a.time))

/-- The lines of one record. -/
def recordLines (r : ExitRecord) : List GoString :=
  nodeLine r.id :: publishedLine r.published :: lastStatusLine r.lastStatus ::
    r.addresses.map addressLine

/-- The lines of an exit list made of the given records. -/
def exitListText (recs : List ExitRecord) : List GoString :=
  recs.flatMap recordLines

/-- Number of `ExitAddress` lines of a text. -/
def countExitAddressLines (body : List GoString) : Nat :=
  (body.filter (fun line => HasPrefix line kwExitAddress)).length

/-- The address the parser stores for an `ExitAddress` line with at least four
space-separated pieces. -/
def lineAddress (L : Lib I T) (line : GoString) : ExitAddress I T :=
  { IP := L.ParseIP (Trim ((SplitAfter line ' ').getD 1 []) [' ']),
    Date := parsetortime L ((SplitAfter line ' ').getD 2 [] ++ (SplitAfter line ' ').getD 3 []) }

/-- The node a complete record stands for. -/
def recordNode (L : Lib I T) (r : ExitRecord) : TorNode I T :=
  { NodeId := r.id,
    Published := parsetortime L r.published,
    Updated := parsetortime L r.lastStatus,
    Addresses := r.addresses.map (fun a => lineAddress L (addressLine a)) }

end Parser

/-! ## tor.go: the hash -/

/-- Go `map[string]V`: a finite map, every key bound once. -/
abbrev GoMap (V : Type) := AList (fun _ : GoString => V)

/-- Go `int` arithmetic (64 bits, two's complement wrap-around). -/
def wrapInt (x : Int) : Int := (x + 2 ^ 63) % 2 ^ 64 - 2 ^ 63

/-- `type TorHash struct`. -/
structure TorHash (I T : Type) where
  hash : GoMap (TorNode I T)
  cnt : Int
  deriving DecidableEq

section Hash

variable {I T : Type}

/-- `NewTorHash()`. -/
def NewTorHash : TorHash I T := { hash := ∅, cnt := 0 }

/-- `(t *TorHash) Add(node)`: every address of the node is bound to the node and
counted. -/
def TorHash.Add (L : Lib I T) (t : TorHash I T) (node : TorNode I T) : TorHash I T :=
  node.Addresses.foldl
    (fun t addr =>
      { hash := t.hash.insert (L.IPString addr.IP) node, cnt := wrapInt (t.cnt + 1) })
    t

/-- `(t *TorHash) Lookup(ip)`: `some node` for `(node, true)`, `none` for
`(nil, false)`. -/
def TorHash.Lookup (L : Lib I T) (t : TorHash I T) (ip : I) : Option (TorNode I T) :=
  t.hash.lookup (L.IPString ip)

/-- `(t *TorHash) Exists(ip)`. -/
def TorHash.Exists (L : Lib I T) (t : TorHash I T) (ip : I) : GoString × Bool :=
  match t.Lookup L ip with
  | some node => (node.NodeId, true)
  | none => ([], false)

/-- `(t *TorHash) Len()`. -/
def TorHash.Len (t : TorHash I T) : Int := t.cnt

/-- The loop of `torupdater` that fills a new hash: `hash := NewTorHash()` followed by
`hash.Add(node)` for every node in order. -/
def buildTorHash (L : Lib I T) (nodes : List (TorNode I T)) : TorHash I T :=
  nodes.foldl (TorHash.Add L) NewTorHash

/-- The address `ip` is listed by `node`: one of the node's exit addresses has the
string form of `ip`, the key under which the hash stores addresses. -/
def listsAddress (L : Lib I T) (node : TorNode I T) (ip : I) : Prop :=
  ∃ a ∈ node.Addresses, L.IPString a.IP = L.IPString ip

/-- A text is well formed when it has at least one record and every record has at least
one `ExitAddress` line. -/
def WellFormed (recs : List ExitRecord) : Prop :=
  recs ≠ [] ∧ ∀ r ∈ recs, r.addresses ≠ []

end Hash

/-! ## Channels -/

/-- A buffered Go channel `make(chan α, cap)`: the pending values, oldest first, and
the capacity. No receiver is waiting on it while a sender runs. -/
structure Chan (α : Type) where
  buf : List α
  cap : Nat
  deriving DecidableEq, Repr

/-- `make(chan α, cap)`. -/
def makeChan {α : Type} (cap : Nat) : Chan α := { buf := [], cap := cap }

/-- The send of `select { case c <- x: ... default: ... }`: the channel after the send,
or `none` when the buffer is full and the `default` branch runs. -/
def Chan.trySend {α : Type} (c : Chan α) (x : α) : Option (Chan α) :=
  if c.buf.length < c.cap then some { c with buf := c.buf ++ [x] } else none

/-- The receive `x := <-c` when a value is pending: the oldest value and the channel
without it. -/
def Chan.recv {α : Type} (c : Chan α) : Option (α × Chan α) :=
  match c.buf with
  | [] => none
  | x :: rest => some (x, { c with buf := rest })

/-! ## geo.go -/

/-- A Go `error` value, known by its message. -/
abbrev GoError := String

/-- Modelled from the spec: the declaration of `GeoLocation` is not among the sources;
these are the fields `doQuery` assigns, a pointer field being an `Option`. `S` stands for
the `ISP` struct and `P` for `Position`. -/
structure GeoLocation (S P : Type) where
  ISP : Option S
  Position : Option P
  Country : GoString
  City : GoString
  Location : GoString
  CountryISO : GoString
  LocationI18n : GoMap GoString
  TorNode : Option GoString
  deriving DecidableEq

/-- `type responsewrapper struct`. -/
structure responsewrapper (S P : Type) where
  response : Option (GeoLocation S P)
  err : Option GoError
  deriving DecidableEq

/-- `type Query struct`. -/
structure Query (I S P : Type) where
  dummy : Bool
  ip : I
  resp : Chan (responsewrapper S P)
  valid : Bool
  deriving DecidableEq

/-- `var ErrRequestTimeout`. -/
def ErrRequestTimeout : GoError := "unable to queue the geo request for processing"

/-- `type Geo struct`, without its logger and runtime. `R` stands for
`maxminddb.Reader`; a nil pointer is `none`. -/
structure Geo (I T R S P : Type) where
  loaded : Bool
  reload : Chan Bool
  queries : Chan (Query I S P)
  citydb : Option R
  ispdb : Option R
  tordb : Option (TorHash I T)
  newtordb : Chan (TorHash I T)

/-- `type VersionData struct` (config.go). -/
structure VersionData where
  City : GoString
  Isp : GoString
  deriving DecidableEq, Repr

/-- `type Config struct` (config.go); durations in nanoseconds. -/
structure Config where
  GeoDBPath : GoString
  MaxMindUrlTemplate : GoString
  MaxMindKey : GoString
  TorUrl : GoString
  MaxMindUpdateInterval : Int
  TorUpdateInterval : Int
  deriving DecidableEq, Repr

/-- `const versionDataFilename`. -/
def versionDataFilename : GoString := "geotor.version".toList

/-- The files and decoders `doReload` reads through the standard library and
`maxminddb`; each is `none` when the call returns an error. -/
structure Files (R : Type) where
  /-- `filepath.Join(dir, name)` -/
  Join : GoString → GoString → GoString
  /-- `ioutil.ReadFile(name)` -/
  ReadFile : GoString → Option GoString
  /-- `gob.NewDecoder(bytes.NewReader(b)).Decode(&VersionData{})` -/
  Decode : GoString → Option VersionData
  /-- `maxminddb.Open(name)` -/
  Open : GoString → Option R

/-- The record `doQuery` decodes a city lookup into. -/
structure NameTable where
  Names : GoMap GoString
  deriving DecidableEq

structure Country where
  Names : GoMap GoString
  ISOCode : GoString
  deriving DecidableEq

structure CityRecord (P : Type) where
  Position : P
  City : NameTable
  Subdivisions : List NameTable
  Country : Country
  deriving DecidableEq

/-- The two lookups `doQuery` makes: `ispdb.Lookup(ip, &ret.ISP)` and
`citydb.Lookup(ip, &record)`, each giving the decoded value or the error. -/
structure Mmdb (I R S P : Type) where
  LookupISP : R → I → Except GoError S
  LookupCity : R → I → Except GoError (CityRecord P)

section GeoDefs

variable {I T R S P : Type}

/-- `StartGeo(cfg)`: the state of the new `Geo`; the three goroutines it starts are
not part of the value. -/
def StartGeo (_cfg : Config) : Geo I T R S P :=
  { loaded := false
    reload := makeChan 2
    queries := makeChan 1024
    citydb := none
    ispdb := none
    tordb := none
    newtordb := makeChan 1 }

/-- `(g *Geo) Loaded()`. -/
def Geo.Loaded (g : Geo I T R S P) : Bool := g.loaded

/-- The query `Geo.Query` builds before it tries to queue it: `q := new(Query)`,
`q.ip = ip`, `q.resp = make(chan *responsewrapper, 1)`, `q.valid = true`. -/
def newQuery (ip : I) : Query I S P :=
  { dummy := false, ip := ip, resp := makeChan 1, valid := true }

/-- `(g *Geo) Query(ip)`: the state of `g` after the call and what the call returns,
`(q, nil)` or `(nil, ErrRequestTimeout)`. -/
def Geo.Query (g : Geo I T R S P) (ip : I) :
    Geo I T R S P × Except GoError (Geotor.Query I S P) :=
  let q : Geotor.Query I S P := newQuery ip
  match g.queries.trySend q with
  | some queries => ({ g with queries := queries }, .ok q)
  | none => (g, .error ErrRequestTimeout)

/-- Submitting one query per address of `ips`, in order, with nothing receiving from
the queue: the final state and the result of every call. -/
def submitAll (g : Geo I T R S P) :
    List I → Geo I T R S P × List (Except GoError (Query I S P))
  | [] => (g, [])
  | ip :: ips =>
    let r := g.Query ip
    let rest := submitAll r.1 ips
    (rest.1, r.2 :: rest.2)

/-- The non-blocking publish at the end of a `torupdater` cycle:
`select { case g.newtordb <- hash: default: }`. -/
def publishTorHash (g : Geo I T R S P) (hash : TorHash I T) : Geo I T R S P :=
  match g.newtordb.trySend hash with
  | some c => { g with newtordb := c }
  | none => g

/-- The case `th := <-g.newtordb` of `geolisten`, taken when a delivery is pending:
`g.tordb = th`. -/
def geolistenNewTor (g : Geo I T R S P) : Option (Geo I T R S P) :=
  match g.newtordb.recv with
  | some (th, c) => some { g with tordb := some th, newtordb := c }
  | none => none

/-- The version strings `doReload` obtains from the persisted version record: both are
empty unless the file is read and decoded without error. -/
def readVersions (F : Files R) (cfg : Config) : GoString × GoString :=
  let versionfile := F.Join cfg.GeoDBPath versionDataFilename
  match F.ReadFile versionfile with
  | none => ([], [])
  | some verbytes =>
    match F.Decode verbytes with
    | none => ([], [])
    | some verinfo => (verinfo.City, verinfo.Isp)

/-- The product names `doReload` passes to `fmt.Sprintf`. -/
def productCity : GoString := "GeoIP2-City".toList
def productIsp : GoString := "GeoIP2-ISP".toList

/-- `filepath.Join(cfg.GeoDBPath, fmt.Sprintf("%s-%s.mmdb", product, ver))`. -/
def dbFile (F : Files R) (cfg : Config) (product ver : GoString) : GoString :=
  F.Join cfg.GeoDBPath (product ++ "-".toList ++ ver ++ ".mmdb".toList)

/-- `doReload(cfg, g)`. -/
def doReload (F : Files R) (cfg : Config) (g : Geo I T R S P) : Geo I T R S P :=
  let g := { g with loaded := false }
  let success : Nat := 0
  let (cityver, ispver) := readVersions F cfg
  let (g, success) :=
    if cityver ≠ [] then
      match F.Open (dbFile F cfg productCity cityver) with
      | some r => ({ g with citydb := some r }, success + 1)
      | none => (g, success)
    else (g, success)
  let (g, success) :=
    if ispver ≠ [] then
      match F.Open (dbFile F cfg productIsp ispver) with
      | some r => ({ g with ispdb := some r }, success + 1)
      | none => (g, success)
    else (g, success)
  if success = 2 then { g with loaded := true } else g

/-- `shouldIncludeSubdivision(iso)`. -/
def shouldIncludeSubdivision (iso : GoString) : Bool :=
  if iso = "US".toList ∨ iso = "CA".toList ∨ iso = "MX".toList ∨ iso = "IN".toList ∨
      iso = "CN".toList then true
  else false

/-- The body of the loop over `record.Country.Names` in `doQuery`: the string stored in
`ret.LocationI18n[lang]`. -/
def localizedLocation (record : CityRecord P) (lang countryName : GoString) : GoString :=
  let subdivision : GoString :=
    if shouldIncludeSubdivision record.Country.ISOCode ∧ record.Subdivisions.length > 0 then
      match record.Subdivisions.head? with
      | none => []
      | some first =>
        match first.Names.lookup lang with
        | some sub => sub
        | none =>
          match first.Names.lookup "en".toList with
          | some sub => sub
          | none => []
    else []
  let cityName : GoString :=
    match record.City.Names.lookup lang with
    | some c => c
    | none =>
      match record.City.Names.lookup "en".toList with
      | some c => c
      | none => []
  let countryName :=
    if subdivision ≠ [] then subdivision ++ ", ".toList ++ countryName else countryName
  let countryName :=
    if cityName ≠ [] then cityName ++ ", ".toList ++ countryName else countryName
  countryName

/-- The map `ret.LocationI18n` after the `if country, ok := record.Country.Names["en"]`
statement of `doQuery`. -/
def locationI18n (record : CityRecord P) : GoMap GoString :=
  match record.Country.Names.lookup "en".toList with
  | none => ∅
  | some _ =>
    record.Country.Names.entries.foldl
      (fun m e => m.insert e.1 (localizedLocation record e.1 e.2)) ∅

/-- The `else` branch of `doQuery` after a city lookup without error: the fields of
`ret` filled from `record`. -/
def fillLocation (isp : Option S) (record : CityRecord P) : GeoLocation S P :=
  let i18n := locationI18n record
  { ISP := isp
    Position := some record.Position
    Country := (record.Country.Names.lookup "en".toList).getD []
    City := (record.City.Names.lookup "en".toList).getD []
    Location := (i18n.lookup "en".toList).getD []
    CountryISO := record.Country.ISOCode
    LocationI18n := i18n
    TorNode := none }

/-- `doQuery(q, citydb, ispdb, tordb, lg)` with non-nil readers: the query after the
response was put into `q.resp`, or how the call stops. -/
def doQuery (D : Mmdb I R S P) (L : Lib I T) (q : Query I S P) (citydb ispdb : R)
    (tordb : Option (TorHash I T)) : Except Stop (Query I S P) :=
  let isp : Option S :=
    match D.LookupISP ispdb q.ip with
    | .ok v => some v
    | .error _ => none
  let lookup := D.LookupCity citydb q.ip
  let ret : Option (GeoLocation S P) :=
    match lookup with
    | .error _ => none
    | .ok record => some (fillLocation isp record)
  let lookupError : Option GoError :=
    match lookup with
    | .error e => some e
    | .ok _ => none
  let ret : Except Stop (Option (GeoLocation S P)) :=
    match tordb with
    | none => .ok ret
    | some t =>
      match ret with
      | none => .error .panic
      | some loc =>
        match t.Exists L q.ip with
        | (nodeid, true) => .ok (some { loc with TorNode := some nodeid })
        | (_, false) => .ok (some { loc with TorNode := none })
  match ret with
  | .error e => .error e
  | .ok ret =>
    let wrap : responsewrapper S P := { response := ret, err := lookupError }
    match q.resp.trySend wrap with
    | some resp => .ok { q with resp := resp }
    | none => .error .blocked

end GeoDefs

/-! ## Example data -/

/-- A library instance for examples: addresses and times are kept as text. -/
def textLib : Lib GoString GoString :=
  { ParseIP := id, IPString := id, TimeParse := some, zeroTime := [] }

/-- Two nodes that share the address `80.82.67.166`. -/
def sampleNodes : List (TorNode GoString GoString) :=
  [{ NodeId := "AAAA".toList, Published := [], Updated := [],
     Addresses := [⟨"80.82.67.166".toList, []⟩] },
   { NodeId := "BBBB".toList, Published := [], Updated := [],
     Addresses := [⟨"10.0.0.1".toList, []⟩, ⟨"80.82.67.166".toList, []⟩] },
   { NodeId := "CCCC".toList, Published := [], Updated := [],
     Addresses := [⟨"10.0.0.2".toList, []⟩] }]

/-- A Go map literal. -/
def goMap {V : Type} (kvs : List (GoString × V)) : GoMap V :=
  kvs.foldl (fun m kv => m.insert kv.1 kv.2) ∅

/-- A city record with English and French names. -/
def sampleRecord : CityRecord Unit :=
  { Position := ()
    City := ⟨goMap [("en".toList, "Chicago".toList)]⟩
    Subdivisions := [⟨goMap [("en".toList, "Illinois".toList)]⟩]
    Country := ⟨goMap [("en".toList, "United States".toList),
                       ("fr".toList, "Etats-Unis".toList)], "US".toList⟩ }

/-- A city record whose country has a French name only. -/
def frenchOnlyRecord : CityRecord Unit :=
  { Position := ()
    City := ⟨goMap [("fr".toList, "Paris".toList)]⟩
    Subdivisions := []
    Country := ⟨goMap [("fr".toList, "France".toList)], "FR".toList⟩ }

/-- A database that knows `8.8.8.8` and `2.2.2.2` and fails for every other address. -/
def sampleDb : Mmdb GoString Unit GoString Unit :=
  { LookupISP := fun _ _ => .ok "Example ISP".toList
    LookupCity := fun _ ip =>
      if ip = "8.8.8.8".toList then .ok sampleRecord
      else if ip = "2.2.2.2".toList then .ok frenchOnlyRecord
      else .error "no city record" }

/-- The query `Geo.Query` creates for `ip`. -/
def sampleQuery (ip : GoString) : Query GoString GoString Unit := newQuery ip

/-- A hash built from one node only. -/
def olderHash : TorHash GoString GoString := buildTorHash textLib (sampleNodes.take 1)

/-- A hash built from all sample nodes. -/
def newerHash : TorHash GoString GoString := buildTorHash textLib sampleNodes

/-- The version record names `abc` and `def`; only the city file can be opened. -/
def cityOnlyFiles : Files Nat :=
  { Join := fun dir name => dir ++ "/".toList ++ name
    ReadFile := fun _ => some []
    Decode := fun _ => some ⟨"abc".toList, "def".toList⟩
    Open := fun name => if name = "/tmp/GeoIP2-City-abc.mmdb".toList then some 1 else none }

def sampleConfig : Config :=
  { GeoDBPath := "/tmp".toList, MaxMindUrlTemplate := [], MaxMindKey := [], TorUrl := [],
    MaxMindUpdateInterval := 86400000000000, TorUpdateInterval := 3600000000000 }

/-- A loaded service holding reader `0` for both stores. -/
def loadedGeo : Geo GoString GoString Nat GoString Unit :=
  { (StartGeo sampleConfig : Geo GoString GoString Nat GoString Unit) with
    loaded := true, citydb := some 0, ispdb := some 0 }

section ReloadSpec

variable {R : Type}

/-- The reader a reload obtains for the city store: the version record names a city
checksum and that file opens. -/
def openedCity (F : Files R) (cfg : Config) : Option R :=
  if (readVersions F cfg).1 = [] then none
  else F.Open (dbFile F cfg productCity (readVersions F cfg).1)

/-- The reader a reload obtains for the ISP store. -/
def openedIsp (F : Files R) (cfg : Config) : Option R :=
  if (readVersions F cfg).2 = [] then none
  else F.Open (dbFile F cfg productIsp (readVersions F cfg).2)

end ReloadSpec

section LocationSpec

variable {P : Type}

/-- The city name of a locale: the locale's city name, else the "en" city name, else
empty. -/
def specCityName (record : CityRecord P) (lang : GoString) : GoString :=
  ((record.City.Names.lookup lang).orElse
    (fun _ => record.City.Names.lookup "en".toList)).getD []

/-- The countries whose subdivision is part of the location. -/
def subdivisionCountries : List GoString :=
  ["US".toList, "CA".toList, "MX".toList, "IN".toList, "CN".toList]

/-- The subdivision of a locale: empty unless the country is one of
`subdivisionCountries` and a subdivision exists; then the first subdivision's name for
the locale, else its "en" name, else empty. -/
def specSubdivision (record : CityRecord P) (lang : GoString) : GoString :=
  if record.Country.ISOCode ∈ subdivisionCountries then
    match record.Subdivisions with
    | [] => []
    | first :: _ =>
      ((first.Names.lookup lang).orElse (fun _ => first.Names.lookup "en".toList)).getD []
  else []

/-- City, subdivision and country joined by ", " in that order, an empty city or
subdivision left out. -/
def specLocation (record : CityRecord P) (lang country : GoString) : GoString :=
  List.intercalate ", ".toList
    (([specCityName record lang, specSubdivision record lang].filter (fun x => x ≠ [])) ++
      [country])

end LocationSpec

/-- One record with two `ExitAddress` lines. -/
def sampleRecords : List ExitRecord :=
  [{ id := "47E25A3042414FAA1D934D546FBF9E60E80678E2".toList,
     published := "2017-10-25 08:25:17".toList,
     lastStatus := "2017-10-25 09:03:28".toList,
     addresses := [⟨"80.82.67.166".toList, "2017-10-25".toList, "09:08:02".toList⟩,
                   ⟨"80.82.67.167".toList, "2017-10-25".toList, "09:08:03".toList⟩] }]

/-- A record as the scanner hands it to the parser: every line without its final
carriage return. -/
def scannedRecord (r : ExitRecord) : ExitRecord :=
  { id := dropCR r.id
    published := dropCR r.published
    lastStatus := dropCR r.lastStatus
    addresses := r.addresses.map (fun a => { a with time := dropCR a.time }) }

/-- An id of 70000 bytes. -/
def longId : GoString := List.replicate 70000 'A'

/-- One record whose id has 70000 bytes. -/
def longIdRecords : List ExitRecord :=
  [{ id := longId,
     published := "2017-10-25 08:25:17".toList,
     lastStatus := "2017-10-25 09:03:28".toList,
     addresses := [⟨"80.82.67.166".toList, "2017-10-25".toList, "09:08:02".toList⟩] }]

/-- One record whose id ends in a carriage return. -/
def returnIdRecords : List ExitRecord :=
  [{ id := "47E25A30".toList ++ [Char.ofNat 13],
     published := "2017-10-25 08:25:17".toList,
     lastStatus := "2017-10-25 09:03:28".toList,
     addresses := [⟨"80.82.67.166".toList, "2017-10-25".toList, "09:08:02".toList⟩] }]

/-- A record that stops after its `LastStatus` line. -/
def headerOnlyText : List GoString :=
  ["ExitNode 47E25A3042414FAA1D934D546FBF9E60E80678E2".toList,
   "Published 2017-10-25 08:25:17".toList,
   "LastStatus 2017-10-25 09:03:28".toList]

/-! ## torupdater.go: one update cycle -/

section Cycle

variable {I T R S P : Type}

/-- One pass of the loop of `torupdater`, up to the wait on the ticker. `fetched` is the
body of the response of `http.Get(cfg.TorUrl)` as lines, `none` when the call returns an
error. An error of `tokenizeresponse` is logged and `nodes` is nil; the hash built from
`nodes` is published without blocking. -/
def torupdaterCycle (L : Lib I T) (fetched : Option (List GoString)) (g : Geo I T R S P) :
    Except Stop (Geo I T R S P) :=
  match fetched with
  | none => .ok g
  | some body =>
    let nodes : Except Stop (List (TorNode I T)) :=
      match tokenizeresponse L body with
      | .ok nodes => .ok nodes
      | .error (.err _) => .ok []
      | .error e => .error e
    match nodes with
    | .error e => .error e
    | .ok nodes => .ok (publishTorHash g (buildTorHash L nodes))

/-- Number of address keys the table of a hash holds. -/
def TorHash.entries (t : TorHash I T) : Nat := t.hash.keys.length

end Cycle

/-- A body whose first line is not an `ExitNode` line. -/
def malformedText : List GoString :=
  ["<html>Service Unavailable</html>".toList]

/-- A service whose current Tor index is `newerHash` and whose delivery slot is empty. -/
def indexedGeo : Geo GoString GoString Nat GoString Unit :=
  { (StartGeo sampleConfig : Geo GoString GoString Nat GoString Unit) with
    loaded := true, citydb := some 0, ispdb := some 0, tordb := some newerHash }

/-! ## The exit-list parser on well-formed input -/

section ParserProofs

variable {I T : Type}

theorem SplitAfter_ne_nil (s : GoString) (c : Char) : SplitAfter s c ≠ [] := by
  cases s with
  | nil => simp [SplitAfter]
  | cons a as =>
    unfold SplitAfter
    split_ifs
    · simp
    · split <;> simp

theorem SplitAfter_length (s : GoString) (c : Char) :
    (SplitAfter s c).length = s.count c + 1 := by
  induction s with
  | nil => simp [SplitAfter]
  | cons a as ih =>
    unfold SplitAfter
    split_ifs with h
    · subst h; simp [ih]
    · have hne := SplitAfter_ne_nil as c
      cases hsp : SplitAfter as c with
      | nil => exact absurd hsp hne
      | cons p ps =>
        rw [hsp] at ih
        have hca : (a == c) = false := by simpa using h
        simp [List.count_cons, hca] at ih ⊢
        omega

theorem index_of_lt {α : Type} (xs : List α) (i : Nat) (d : α) (h : i < xs.length) :
    index xs i = .ok (xs.getD i d) := by
  unfold index
  rw [List.getD_eq_getElem?_getD, List.get?_eq_getElem?, List.getElem?_eq_getElem h]
  rfl

theorem addressLine_pieces (a : AddressEntry) :
    4 ≤ (SplitAfter (addressLine a) ' ').length := by
  rw [SplitAfter_length]
  simp [addressLine, kwExitAddress, List.count_cons, List.count_append]
  omega

theorem scanLine_node (L : Lib I T) (s : Scan I T) (id : GoString)
    (hs : s.state = stateNode) :
    scanLine L s (nodeLine id) =
      .ok { s with node := { s.node with NodeId := id }, state := statePublished } := by
  simp [scanLine, caseStateNode, hs, stateNode, statePublished, stateUpdated, stateAddress,
    nodeLine, kwExitNode, HasPrefix, sliceFrom, bind, Except.bind, pure, Except.pure]

theorem scanLine_published (L : Lib I T) (s : Scan I T) (ts : GoString)
    (hs : s.state = statePublished) :
    scanLine L s (publishedLine ts) =
      .ok { s with node := { s.node with Published := parsetortime L ts },
                   state := stateUpdated } := by
  simp [scanLine, hs, statePublished, stateUpdated, publishedLine, kwPublished, HasPrefix,
    sliceFrom, bind, Except.bind, pure, Except.pure]

theorem scanLine_lastStatus (L : Lib I T) (s : Scan I T) (ts : GoString)
    (hs : s.state = stateUpdated) :
    scanLine L s (lastStatusLine ts) =
      .ok { s with node := { s.node with Updated := parsetortime L ts },
                   state := stateAddress } := by
  simp [scanLine, hs, statePublished, stateUpdated, stateAddress, lastStatusLine,
    kwLastStatus, HasPrefix, sliceFrom, bind, Except.bind, pure, Except.pure]

theorem scanLine_address (L : Lib I T) (s : Scan I T) (a : AddressEntry)
    (hs : s.state = stateAddress) :
    scanLine L s (addressLine a) =
      .ok { s with node := { s.node with
              Addresses := s.node.Addresses ++ [lineAddress L (addressLine a)] } } := by
  have h4 := addressLine_pieces a
  have hp : HasPrefix (addressLine a) kwExitAddress = true := by
    simp [addressLine, kwExitAddress, HasPrefix]
  simp only [scanLine, hs, stateAddress, statePublished, stateUpdated, hp]
  rw [index_of_lt _ 1 [] (by omega), index_of_lt _ 2 [] (by omega),
    index_of_lt _ 3 [] (by omega)]
  simp [lineAddress, bind, Except.bind, pure, Except.pure]

theorem scanLine_nextNode (L : Lib I T) (s : Scan I T) (id : GoString)
    (hs : s.state = stateAddress) :
    scanLine L s (nodeLine id) =
      .ok { state := statePublished, node := { NewTorNode L with NodeId := id },
            ret := s.ret ++ [s.node] } := by
  simp [scanLine, caseStateNode, hs, stateNode, statePublished, stateUpdated, stateAddress,
    nodeLine, kwExitNode, kwExitAddress, HasPrefix, sliceFrom, bind, Except.bind, pure,
    Except.pure]

theorem scanLines_append (L : Lib I T) (s : Scan I T) (xs ys : List GoString) :
    scanLines L s (xs ++ ys) =
      match scanLines L s xs with
      | .ok s' => scanLines L s' ys
      | .error e => .error e := by
  induction xs generalizing s with
  | nil => simp [scanLines]
  | cons x xs ih =>
    simp only [List.cons_append, scanLines]
    cases scanLine L s x with
    | error e => simp
    | ok s' => simpa using ih s'

/-- Address lines read in `stateAddress` are appended to the pending node. -/
theorem scanLines_addresses (L : Lib I T) (s : Scan I T) (as : List AddressEntry)
    (hs : s.state = stateAddress) :
    scanLines L s (as.map addressLine) =
      .ok { s with node := { s.node with
              Addresses := s.node.Addresses ++
                as.map (fun a => lineAddress L (addressLine a)) } } := by
  induction as generalizing s with
  | nil => simp [scanLines]
  | cons a as ih =>
    simp only [List.map_cons, scanLines, scanLine_address L s a hs]
    have hs' : ({ s with node := { s.node with
        Addresses := s.node.Addresses ++ [lineAddress L (addressLine a)] } } :
        Scan I T).state = stateAddress := hs
    rw [ih _ hs']
    simp

/-- The three header lines of a record, read once its `ExitNode` line has been
accepted, followed by its address lines. -/
theorem scanLines_recordTail (L : Lib I T) (ret : List (TorNode I T)) (r : ExitRecord) :
    scanLines L { state := statePublished, node := { NewTorNode L with NodeId := r.id },
                  ret := ret }
        (publishedLine r.published :: lastStatusLine r.lastStatus ::
          r.addresses.map addressLine) =
      .ok { state := stateAddress, node := recordNode L r, ret := ret } := by
  simp only [scanLines]
  rw [scanLine_published L _ _ rfl]
  simp only []
  rw [scanLine_lastStatus L _ _ rfl]
  simp only []
  rw [scanLines_addresses L _ _ rfl]
  simp [recordNode, NewTorNode]

/-- A record read at the very start of the body. -/
theorem scanLines_firstRecord (L : Lib I T) (r : ExitRecord) :
    scanLines L { state := stateNode, node := NewTorNode L, ret := [] } (recordLines r) =
      .ok { state := stateAddress, node := recordNode L r, ret := [] } := by
  simp only [recordLines, scanLines]
  rw [scanLine_node L _ _ rfl]
  exact scanLines_recordTail L [] r

/-- A record read after a complete one: the pending node is emitted. -/
theorem scanLines_nextRecord (L : Lib I T) (s : Scan I T) (r : ExitRecord)
    (hs : s.state = stateAddress) :
    scanLines L s (recordLines r) =
      .ok { state := stateAddress, node := recordNode L r, ret := s.ret ++ [s.node] } := by
  simp only [recordLines, scanLines]
  rw [scanLine_nextNode L _ _ hs]
  exact scanLines_recordTail L _ r

theorem scanLines_records (L : Lib I T) (s : Scan I T) (recs : List ExitRecord)
    (hs : s.state = stateAddress) :
    ∃ s', scanLines L s (exitListText recs) = .ok s' ∧ s'.state = stateAddress ∧
      s'.ret ++ [s'.node] = s.ret ++ [s.node] ++ recs.map (recordNode L) := by
  induction recs generalizing s with
  | nil => exact ⟨s, by simp [exitListText, scanLines], hs, by simp⟩
  | cons r recs ih =>
    obtain ⟨s', h1, h2, h3⟩ :=
      ih { state := stateAddress, node := recordNode L r, ret := s.ret ++ [s.node] } rfl
    refine ⟨s', ?_, h2, ?_⟩
    · have : exitListText (r :: recs) = recordLines r ++ exitListText recs := by
        simp [exitListText]
      rw [this, scanLines_append, scanLines_nextRecord L s r hs]
      exact h1
    · simpa using h3

/-- The parser returns exactly the nodes of the records the scanner yields. -/
theorem tokenizeresponse_records (L : Lib I T) (body : List GoString) (r : ExitRecord)
    (recs : List ExitRecord) (hscan : scannerLines body = exitListText (r :: recs)) :
    tokenizeresponse L body = .ok ((r :: recs).map (recordNode L)) := by
  obtain ⟨s', h1, h2, h3⟩ :=
    scanLines_records L { state := stateAddress, node := recordNode L r, ret := [] } recs rfl
  have : exitListText (r :: recs) = recordLines r ++ exitListText recs := by
    simp [exitListText]
  unfold tokenizeresponse
  rw [hscan, this, scanLines_append, scanLines_firstRecord L r]
  simp only []
  rw [h1]
  simp only [h2, if_true]
  simpa using h3

theorem dropCR_append (pre x : GoString) (hpre : dropCR pre = pre) :
    dropCR (pre ++ x) = pre ++ dropCR x := by
  cases x with
  | nil => simpa [dropCR] using hpre
  | cons c cs =>
    unfold dropCR
    rw [List.getLast?_append, List.dropLast_append_of_ne_nil _ (List.cons_ne_nil c cs)]
    have hsome : ∃ d, (c :: cs).getLast? = some d :=
      ⟨(c :: cs).getLast (List.cons_ne_nil c cs), List.getLast?_eq_getLast _ _⟩
    obtain ⟨d, hd⟩ := hsome
    rw [hd]
    simp only [Option.or_some]
    split_ifs <;> rfl

theorem dropCR_append_space (pre : GoString) : dropCR (pre ++ [' ']) = pre ++ [' '] := by
  have h : ¬ (' ' = Char.ofNat 13) := by decide
  simp [dropCR, List.getLast?_append, h]

theorem dropCR_nodeLine (id : GoString) : dropCR (nodeLine id) = nodeLine (dropCR id) := by
  have h := dropCR_append (kwExitNode ++ [' ']) id (dropCR_append_space _)
  simpa [nodeLine] using h

theorem dropCR_publishedLine (ts : GoString) :
    dropCR (publishedLine ts) = publishedLine (dropCR ts) := by
  have h := dropCR_append (kwPublished ++ [' ']) ts (dropCR_append_space _)
  simpa [publishedLine] using h

theorem dropCR_lastStatusLine (ts : GoString) :
    dropCR (lastStatusLine ts) = lastStatusLine (dropCR ts) := by
  have h := dropCR_append (kwLastStatus ++ [' ']) ts (dropCR_append_space _)
  simpa [lastStatusLine] using h

theorem dropCR_addressLine (a : AddressEntry) :
    dropCR (addressLine a) = addressLine { a with time := dropCR a.time } := by
  have h := dropCR_append ((kwExitAddress ++ ' ' :: (a.ip ++ ' ' :: a.date)) ++ [' '])
    a.time (dropCR_append_space _)
  simpa [addressLine] using h

theorem map_dropCR_recordLines (r : ExitRecord) :
    (recordLines r).map dropCR = recordLines (scannedRecord r) := by
  simp [recordLines, scannedRecord, dropCR_nodeLine, dropCR_publishedLine,
    dropCR_lastStatusLine, dropCR_addressLine, Function.comp_def]

/-- The scanner yields every line of a text whose lines are all shorter than its
buffer. -/
theorem scannerLines_exitListText (recs : List ExitRecord)
    (hshort : ∀ line ∈ exitListText recs, line.length < MaxScanTokenSize) :
    scannerLines (exitListText recs) = exitListText (recs.map scannedRecord) := by
  have htake : (exitListText recs).takeWhile
      (fun line => decide (line.length < MaxScanTokenSize)) = exitListText recs := by
    rw [List.takeWhile_eq_self_iff]
    intro line hline
    simpa using hshort line hline
  unfold scannerLines
  rw [htake]
  clear htake hshort
  induction recs with
  | nil => simp [exitListText]
  | cons r recs ih =>
    simp only [exitListText, List.flatMap_cons, List.map_append, List.map_cons] at ih ⊢
    rw [ih, map_dropCR_recordLines]

/-- A first line that does not fit the scanner's buffer ends the scan before any line is
parsed. -/
theorem tokenizeresponse_first_line_too_long (L : Lib I T) (line : GoString)
    (rest : List GoString) (hlong : MaxScanTokenSize ≤ line.length) :
    tokenizeresponse L (line :: rest) =
      .error (.err "parser ended in an incorrect state") := by
  have hnot : ¬ line.length < MaxScanTokenSize := by omega
  simp [tokenizeresponse, scannerLines, List.takeWhile_cons, hnot, scanLines, stateNode,
    stateAddress]

theorem countExitAddressLines_recordLines (r : ExitRecord) :
    countExitAddressLines (recordLines r) = r.addresses.length := by
  have h : ∀ as : List AddressEntry,
      ((as.map addressLine).filter (fun line => HasPrefix line kwExitAddress)).length =
        as.length := by
    intro as
    induction as with
    | nil => simp
    | cons a as ih =>
      have hp : HasPrefix (addressLine a) kwExitAddress = true := by
        simp [addressLine, kwExitAddress, HasPrefix]
      simp [List.filter_cons, hp, ih]
  have := h r.addresses
  simp [countExitAddressLines, recordLines, List.filter_cons, nodeLine, publishedLine,
    lastStatusLine, kwExitNode, kwPublished, kwLastStatus, kwExitAddress, HasPrefix] at this ⊢
  exact this

theorem countExitAddressLines_exitListText (recs : List ExitRecord) :
    countExitAddressLines (exitListText recs) =
      (recs.map (fun r => r.addresses.length)).sum := by
  induction recs with
  | nil => simp [countExitAddressLines, exitListText]
  | cons r recs ih =>
    have h1 := countExitAddressLines_recordLines r
    simp only [countExitAddressLines, exitListText, List.flatMap_cons, List.filter_append,
      List.length_append, List.map_cons, List.sum_cons] at h1 ih ⊢
    rw [h1, ih]

/-- C1, amended: on a well-formed exit list of N >= 1 complete records whose lines are
all shorter than 65536 bytes, the token limit of the scanner, and whose ids do not end in a
carriage return, `tokenizeresponse` returns no error and exactly N nodes in input order;
the i-th node carries the i-th record's id and as many addresses as the record has
`ExitAddress` lines (at least one), and the total number of addresses is the number of
`ExitAddress` lines of the text. -/
theorem tokenizeresponse_wellformed (L : Lib I T) (recs : List ExitRecord)
    (hwf : WellFormed recs)
    (hshort : ∀ line ∈ exitListText recs, line.length < MaxScanTokenSize)
    (hid : ∀ r ∈ recs, dropCR r.id = r.id) :
    ∃ nodes, tokenizeresponse L (exitListText recs) = .ok nodes ∧
      nodes.length = recs.length ∧
      nodes.map (fun n => n.NodeId) = recs.map (fun r => r.id) ∧
      nodes.map (fun n => n.Addresses.length) = recs.map (fun r => r.addresses.length) ∧
      (∀ n ∈ nodes, 1 ≤ n.Addresses.length) ∧
      (nodes.map (fun n => n.Addresses.length)).sum =
        countExitAddressLines (exitListText recs) := by
  obtain ⟨hne, haddr⟩ := hwf
  have hscan := scannerLines_exitListText recs hshort
  cases recs with
  | nil => exact absurd rfl hne
  | cons r recs =>
    refine ⟨(scannedRecord r :: recs.map scannedRecord).map (recordNode L),
      tokenizeresponse_records L _ _ _ hscan, by simp, ?_, ?_, ?_, ?_⟩
    · have hids : ∀ rs : List ExitRecord, (∀ x ∈ rs, dropCR x.id = x.id) →
          (rs.map scannedRecord).map (fun x => (recordNode L x).NodeId) =
            rs.map (fun x => x.id) := by
        intro rs hrs
        rw [List.map_map]
        apply List.map_congr_left
        intro x hx
        simpa [recordNode, scannedRecord] using hrs x hx
      have := hids (r :: recs) hid
      simpa [Function.comp_def] using this
    · simp [recordNode, scannedRecord, Function.comp_def]
    · intro n hn
      have hn' : n ∈ ((r :: recs).map scannedRecord).map (recordNode L) := by
        simpa using hn
      obtain ⟨x, hx, rfl⟩ := List.mem_map.mp hn'
      obtain ⟨r', hr', rfl⟩ := List.mem_map.mp hx
      have := haddr r' hr'
      simp only [recordNode, scannedRecord, List.length_map]
      exact Nat.one_le_iff_ne_zero.mpr (fun h => this (List.length_eq_zero.mp h))
    · rw [countExitAddressLines_exitListText]
      simp [recordNode, scannedRecord, Function.comp_def]

end ParserProofs

theorem tokenizeresponse_wellformed_witness :
    WellFormed sampleRecords ∧
    (∀ line ∈ exitListText sampleRecords, line.length < MaxScanTokenSize) ∧
    (∀ r ∈ sampleRecords, dropCR r.id = r.id) ∧
    ∃ nodes, tokenizeresponse textLib (exitListText sampleRecords) = .ok nodes ∧
      nodes.length = sampleRecords.length ∧
      nodes.map (fun n => n.NodeId) = sampleRecords.map (fun r => r.id) ∧
      nodes.map (fun n => n.Addresses.length) =
        sampleRecords.map (fun r => r.addresses.length) ∧
      (∀ n ∈ nodes, 1 ≤ n.Addresses.length) ∧
      (nodes.map (fun n => n.Addresses.length)).sum =
        countExitAddressLines (exitListText sampleRecords) :=
  ⟨⟨by decide, by decide⟩, by decide, by decide,
    tokenizeresponse_wellformed textLib sampleRecords ⟨by decide, by decide⟩
      (by decide) (by decide)⟩

/-- C1, as stated, fails. A well-formed text of one record whose `ExitNode` line has
70009 bytes is rejected: the scanner stops at that line and the parser ends in its first
state. A well-formed text of one record whose id ends in a carriage return gives a node
whose id lacks it. -/
theorem tokenizeresponse_wellformed_fails :
    WellFormed longIdRecords ∧
    tokenizeresponse textLib (exitListText longIdRecords) =
      .error (.err "parser ended in an incorrect state") ∧
    WellFormed returnIdRecords ∧
    ∃ nodes, tokenizeresponse textLib (exitListText returnIdRecords) = .ok nodes ∧
      nodes.map (fun n => n.NodeId) = ["47E25A30".toList] ∧
      nodes.map (fun n => n.NodeId) ≠ returnIdRecords.map (fun r => r.id) := by
  refine ⟨⟨by simp [longIdRecords], by simp [longIdRecords]⟩, ?_,
    ⟨by decide, by decide⟩, ?_⟩
  · have htext : exitListText longIdRecords =
        nodeLine longId :: (exitListText longIdRecords).tail := rfl
    rw [htext]
    apply tokenizeresponse_first_line_too_long
    have hid : longId.length = 70000 := List.length_replicate 70000 'A'
    have hlen : (nodeLine longId).length = 70009 := by
      unfold nodeLine
      rw [List.length_append, List.length_cons, hid]
      decide
    rw [hlen]
    decide
  · refine ⟨_, rfl, ?_, ?_⟩
    · decide
    · decide

/-- C3: a record without any `ExitAddress` line is emitted as a node with no address,
both at end of input and when the next `ExitNode` line is seen. -/
theorem tokenizeresponse_emits_empty_node :
    tokenizeresponse textLib headerOnlyText =
      .ok [{ NodeId := "47E25A3042414FAA1D934D546FBF9E60E80678E2".toList,
             Published := "2017-10-25 08:25:17".toList,
             Updated := "2017-10-25 09:03:28".toList,
             Addresses := [] }] ∧
    tokenizeresponse textLib (headerOnlyText ++ exitListText sampleRecords) =
      .ok ({ NodeId := "47E25A3042414FAA1D934D546FBF9E60E80678E2".toList,
             Published := "2017-10-25 08:25:17".toList,
             Updated := "2017-10-25 09:03:28".toList,
             Addresses := [] } :: sampleRecords.map (recordNode textLib)) := by
  constructor <;> rfl

/-! ## The Tor hash -/

section HashProofs

variable {I T : Type}

theorem lookup_foldl_insert_of_mem (L : Lib I T) (n : TorNode I T)
    (as : List (ExitAddress I T)) (t : TorHash I T) (k : GoString)
    (h : ∃ a ∈ as, L.IPString a.IP = k) :
    (as.foldl (fun t addr =>
        ({ hash := t.hash.insert (L.IPString addr.IP) n, cnt := wrapInt (t.cnt + 1) } :
          TorHash I T)) t).hash.lookup k = some n := by
  induction as using List.reverseRecOn with
  | nil => simp at h
  | append_singleton as a ih =>
    rw [List.foldl_append]
    simp only [List.foldl_cons, List.foldl_nil]
    by_cases hk : L.IPString a.IP = k
    · subst hk
      exact AList.lookup_insert _
    · rw [AList.lookup_insert_ne (Ne.symm hk)]
      apply ih
      obtain ⟨b, hb, hbk⟩ := h
      rcases List.mem_append.mp hb with hb | hb
      · exact ⟨b, hb, hbk⟩
      · simp only [List.mem_singleton] at hb
        subst hb
        exact absurd hbk hk

theorem lookup_foldl_insert_of_not_mem (L : Lib I T) (n : TorNode I T)
    (as : List (ExitAddress I T)) (t : TorHash I T) (k : GoString)
    (h : ∀ a ∈ as, L.IPString a.IP ≠ k) :
    (as.foldl (fun t addr =>
        ({ hash := t.hash.insert (L.IPString addr.IP) n, cnt := wrapInt (t.cnt + 1) } :
          TorHash I T)) t).hash.lookup k = t.hash.lookup k := by
  induction as generalizing t with
  | nil => rfl
  | cons a as ih =>
    simp only [List.foldl_cons]
    rw [ih _ (fun b hb => h b (List.mem_cons_of_mem _ hb))]
    exact AList.lookup_insert_ne (Ne.symm (h a (List.mem_cons_self _ _)))

theorem Lookup_Add_of_lists (L : Lib I T) (t : TorHash I T) (n : TorNode I T) (ip : I)
    (h : listsAddress L n ip) : (t.Add L n).Lookup L ip = some n :=
  lookup_foldl_insert_of_mem L n n.Addresses t _ h

theorem Lookup_Add_of_not_lists (L : Lib I T) (t : TorHash I T) (n : TorNode I T) (ip : I)
    (h : ¬ listsAddress L n ip) : (t.Add L n).Lookup L ip = t.Lookup L ip :=
  lookup_foldl_insert_of_not_mem L n n.Addresses t _
    (fun a ha hk => h ⟨a, ha, hk⟩)

theorem Lookup_foldl_Add_of_not_lists (L : Lib I T) (t : TorHash I T)
    (post : List (TorNode I T)) (ip : I) (h : ∀ m ∈ post, ¬ listsAddress L m ip) :
    (post.foldl (TorHash.Add L) t).Lookup L ip = t.Lookup L ip := by
  induction post generalizing t with
  | nil => rfl
  | cons m post ih =>
    simp only [List.foldl_cons]
    rw [ih _ (fun x hx => h x (List.mem_cons_of_mem _ hx)),
      Lookup_Add_of_not_lists L t m ip (h m (List.mem_cons_self _ _))]

/-- A list with an element satisfying `p` splits at the last such element. -/
theorem exists_last_split {α : Type} (p : α → Prop) (xs : List α) (h : ∃ x ∈ xs, p x) :
    ∃ pre x post, xs = pre ++ x :: post ∧ p x ∧ ∀ y ∈ post, ¬ p y := by
  induction xs using List.reverseRecOn with
  | nil => simp at h
  | append_singleton xs x ih =>
    by_cases hx : p x
    · exact ⟨xs, x, [], rfl, hx, by simp⟩
    · obtain ⟨y, hy, hpy⟩ := h
      have hy' : y ∈ xs := by
        rcases List.mem_append.mp hy with hy | hy
        · exact hy
        · simp only [List.mem_singleton] at hy
          subst hy
          exact absurd hpy hx
      obtain ⟨pre, z, post, hsplit, hz, hpost⟩ := ih ⟨y, hy', hpy⟩
      refine ⟨pre, z, post ++ [x], by simp [hsplit], hz, ?_⟩
      intro w hw
      rcases List.mem_append.mp hw with hw | hw
      · exact hpost w hw
      · simp only [List.mem_singleton] at hw
        subst hw
        exact hx

theorem Lookup_buildTorHash_split (L : Lib I T) (pre post : List (TorNode I T))
    (n : TorNode I T) (ip : I) (hn : listsAddress L n ip)
    (hpost : ∀ m ∈ post, ¬ listsAddress L m ip) :
    (buildTorHash L (pre ++ n :: post)).Lookup L ip = some n := by
  unfold buildTorHash
  rw [List.foldl_append, List.foldl_cons, Lookup_foldl_Add_of_not_lists L _ post ip hpost]
  exact Lookup_Add_of_lists L _ n ip hn

/-- C2: in a hash built from `NewTorHash` by adding `nodes` in order, an address listed
by some added node is found with the id of the last added node that lists it, and an
address listed by no added node is not found. -/
theorem Exists_buildTorHash (L : Lib I T) (nodes : List (TorNode I T)) (ip : I) :
    ((∃ n ∈ nodes, listsAddress L n ip) →
      ∃ pre n post, nodes = pre ++ n :: post ∧ listsAddress L n ip ∧
        (∀ m ∈ post, ¬ listsAddress L m ip) ∧
        (buildTorHash L nodes).Exists L ip = (n.NodeId, true)) ∧
    ((∀ n ∈ nodes, ¬ listsAddress L n ip) →
      (buildTorHash L nodes).Exists L ip = ([], false)) := by
  constructor
  · intro h
    obtain ⟨pre, n, post, hsplit, hn, hpost⟩ :=
      exists_last_split (fun n => listsAddress L n ip) nodes h
    refine ⟨pre, n, post, hsplit, hn, hpost, ?_⟩
    subst hsplit
    simp [TorHash.Exists, Lookup_buildTorHash_split L pre post n ip hn hpost]
  · intro h
    have : (buildTorHash L nodes).Lookup L ip = none := by
      unfold buildTorHash
      rw [Lookup_foldl_Add_of_not_lists L _ nodes ip h]
      simp [TorHash.Lookup, NewTorHash]
    simp [TorHash.Exists, this]

theorem Exists_buildTorHash_witness :
    (∃ n ∈ sampleNodes, listsAddress textLib n "80.82.67.166".toList) ∧
    (∃ pre n post, sampleNodes = pre ++ n :: post ∧
        listsAddress textLib n "80.82.67.166".toList ∧
        (∀ m ∈ post, ¬ listsAddress textLib m "80.82.67.166".toList) ∧
        (buildTorHash textLib sampleNodes).Exists textLib "80.82.67.166".toList =
          (n.NodeId, true)) ∧
    (∀ n ∈ sampleNodes, ¬ listsAddress textLib n "10.0.0.3".toList) ∧
    (buildTorHash textLib sampleNodes).Exists textLib "10.0.0.3".toList = ([], false) := by
  have h1 : ∃ n ∈ sampleNodes, listsAddress textLib n "80.82.67.166".toList :=
    ⟨_, List.mem_cons_self _ _, _, List.mem_cons_self _ _, rfl⟩
  have h2 : ∀ n ∈ sampleNodes, ¬ listsAddress textLib n "10.0.0.3".toList := by
    simp [sampleNodes, listsAddress, textLib]
  exact ⟨h1, (Exists_buildTorHash textLib sampleNodes _).1 h1, h2,
    (Exists_buildTorHash textLib sampleNodes _).2 h2⟩

end HashProofs

/-! ## doReload -/

section ReloadProofs

variable {I T R S P : Type}

/-- What `doReload` leaves in the three fields it writes. -/
theorem doReload_fields (F : Files R) (cfg : Config) (g : Geo I T R S P) :
    (doReload F cfg g).loaded = ((openedCity F cfg).isSome && (openedIsp F cfg).isSome) ∧
    (doReload F cfg g).citydb = ((openedCity F cfg) <|> g.citydb) ∧
    (doReload F cfg g).ispdb = ((openedIsp F cfg) <|> g.ispdb) := by
  unfold doReload openedCity openedIsp
  generalize readVersions F cfg = v
  obtain ⟨c, i⟩ := v
  by_cases hc : c = [] <;> by_cases hi : i = [] <;>
    cases hoc : F.Open (dbFile F cfg productCity c) <;>
    cases hoi : F.Open (dbFile F cfg productIsp i) <;>
    simp [hc, hi, hoc, hoi]

/-- C5: after `doReload`, `Loaded()` is true exactly when the version record yields a
non-empty city checksum and a non-empty ISP checksum and both files open in this reload;
a reload whose city file opens and whose ISP file does not leaves `Loaded()` false,
whatever it was before. -/
theorem doReload_Loaded_iff (F : Files R) (cfg : Config) (g : Geo I T R S P) :
    ((doReload F cfg g).Loaded = true ↔
      (readVersions F cfg).1 ≠ [] ∧ (readVersions F cfg).2 ≠ [] ∧
      (F.Open (dbFile F cfg productCity (readVersions F cfg).1)).isSome = true ∧
      (F.Open (dbFile F cfg productIsp (readVersions F cfg).2)).isSome = true) ∧
    ((F.Open (dbFile F cfg productCity (readVersions F cfg).1)).isSome = true →
      F.Open (dbFile F cfg productIsp (readVersions F cfg).2) = none →
      (doReload F cfg g).Loaded = false) := by
  have h := (doReload_fields F cfg g).1
  unfold Geo.Loaded
  rw [h]
  unfold openedCity openedIsp
  constructor
  · by_cases hc : (readVersions F cfg).1 = [] <;> by_cases hi : (readVersions F cfg).2 = [] <;>
      simp [hc, hi]
  · intro _ hi
    simp [hi]

theorem doReload_Loaded_iff_witness :
    (cityOnlyFiles.Open (dbFile cityOnlyFiles sampleConfig productCity
        (readVersions cityOnlyFiles sampleConfig).1)).isSome = true ∧
    cityOnlyFiles.Open (dbFile cityOnlyFiles sampleConfig productIsp
        (readVersions cityOnlyFiles sampleConfig).2) = none ∧
    loadedGeo.Loaded = true ∧
    (doReload cityOnlyFiles sampleConfig loadedGeo).Loaded = false :=
  ⟨by decide, by decide, rfl,
    (doReload_Loaded_iff cityOnlyFiles sampleConfig loadedGeo).2 (by decide) (by decide)⟩

/-- C6, as stated, fails: the city file opens, the ISP file does not, and `citydb` is
replaced by the new reader. -/
theorem doReload_partial_replaces_city :
    (openedCity cityOnlyFiles sampleConfig).isSome = true ∧
    openedIsp cityOnlyFiles sampleConfig = none ∧
    loadedGeo.citydb = some 0 ∧
    (doReload cityOnlyFiles sampleConfig loadedGeo).citydb = some 1 ∧
    (doReload cityOnlyFiles sampleConfig loadedGeo).citydb ≠ loadedGeo.citydb := by
  have h : (doReload cityOnlyFiles sampleConfig loadedGeo).citydb = some 1 := by
    rw [(doReload_fields cityOnlyFiles sampleConfig loadedGeo).2.1]
    decide
  refine ⟨by decide, by decide, rfl, h, ?_⟩
  rw [h]
  decide

/-- C6, amended: each store field is replaced on its own. A store whose file opens is
installed in its field whether or not the other file opens, a field whose file does not
open keeps its store, and when exactly one file opens `Loaded()` is false. -/
theorem doReload_stores (F : Files R) (cfg : Config) (g : Geo I T R S P) :
    (doReload F cfg g).citydb = ((openedCity F cfg) <|> g.citydb) ∧
    (doReload F cfg g).ispdb = ((openedIsp F cfg) <|> g.ispdb) ∧
    ((openedCity F cfg).isSome ≠ (openedIsp F cfg).isSome →
      (doReload F cfg g).Loaded = false) ∧
    ((openedCity F cfg).isSome = true → (openedIsp F cfg).isSome = true →
      (doReload F cfg g).citydb = openedCity F cfg ∧
      (doReload F cfg g).ispdb = openedIsp F cfg ∧
      (doReload F cfg g).Loaded = true) := by
  obtain ⟨h1, h2, h3⟩ := doReload_fields F cfg g
  refine ⟨h2, h3, ?_, ?_⟩
  · intro hne
    unfold Geo.Loaded
    rw [h1]
    cases hc : (openedCity F cfg).isSome <;> cases hi : (openedIsp F cfg).isSome <;>
      simp [hc, hi] at hne ⊢
  · intro hc hi
    unfold Geo.Loaded
    rw [h1, h2, h3]
    obtain ⟨rc, hrc⟩ := Option.isSome_iff_exists.mp hc
    obtain ⟨ri, hri⟩ := Option.isSome_iff_exists.mp hi
    simp [hrc, hri]

theorem doReload_stores_witness :
    (openedCity cityOnlyFiles sampleConfig).isSome ≠
      (openedIsp cityOnlyFiles sampleConfig).isSome ∧
    (doReload cityOnlyFiles sampleConfig loadedGeo).Loaded = false :=
  ⟨by decide, (doReload_stores cityOnlyFiles sampleConfig loadedGeo).2.2.1 (by decide)⟩

end ReloadProofs

/-! ## Queries -/

section QueryProofs

variable {I T R S P : Type}

/-- With a Tor index loaded, a failed city lookup makes `doQuery` panic. -/
theorem doQuery_panic_of_lookup_error (D : Mmdb I R S P) (L : Lib I T) (q : Query I S P)
    (citydb ispdb : R) (t : TorHash I T) (e : GoError)
    (h : D.LookupCity citydb q.ip = .error e) :
    doQuery D L q citydb ispdb (some t) = .error .panic := by
  simp [doQuery, h]

/-- Without a Tor index, a failed city lookup is delivered with a nil response. -/
theorem doQuery_error_of_no_tordb (D : Mmdb I R S P) (L : Lib I T) (q : Query I S P)
    (citydb ispdb : R) (e : GoError) (h : D.LookupCity citydb q.ip = .error e)
    (hroom : q.resp.buf.length < q.resp.cap) :
    doQuery D L q citydb ispdb none =
      .ok { q with resp := { q.resp with
              buf := q.resp.buf ++ [{ response := none, err := some e }] } } := by
  simp [doQuery, h, Chan.trySend, hroom]

/-- C4: the city lookup for `10.9.9.9` fails; with a Tor index loaded, whether or not it
holds the address, `doQuery` panics and puts nothing into the response slot. Only with no
index loaded is the lookup error delivered. -/
theorem doQuery_lookup_error_panics :
    sampleDb.LookupCity () "10.9.9.9".toList = .error "no city record" ∧
    sampleDb.LookupCity () "80.82.67.166".toList = .error "no city record" ∧
    doQuery sampleDb textLib (sampleQuery "10.9.9.9".toList) () () (some NewTorHash) =
      .error .panic ∧
    newerHash.Exists textLib "80.82.67.166".toList = ("BBBB".toList, true) ∧
    doQuery sampleDb textLib (sampleQuery "80.82.67.166".toList) () () (some newerHash) =
      .error .panic ∧
    doQuery sampleDb textLib (sampleQuery "10.9.9.9".toList) () () none =
      .ok { sampleQuery "10.9.9.9".toList with
            resp := { buf := [{ response := none, err := some "no city record" }],
                      cap := 1 } } := by
  refine ⟨rfl, rfl, ?_, by decide, ?_, ?_⟩
  · exact doQuery_panic_of_lookup_error _ _ _ _ _ _ "no city record" rfl
  · exact doQuery_panic_of_lookup_error _ _ _ _ _ _ "no city record" rfl
  · exact doQuery_error_of_no_tordb _ _ _ _ _ "no city record" rfl (by decide)

theorem submitAll_from (g : Geo I T R S P) (hcap : g.queries.cap = 1024) (ips : List I)
    (hlen : g.queries.buf.length ≤ 1024) :
    (submitAll g ips).2 =
      (ips.take (1024 - g.queries.buf.length)).map (fun ip => .ok (newQuery ip)) ++
      (ips.drop (1024 - g.queries.buf.length)).map (fun _ => .error ErrRequestTimeout) := by
  induction ips generalizing g with
  | nil => simp [submitAll]
  | cons ip ips ih =>
    by_cases hfull : g.queries.buf.length < 1024
    · have hq : g.Query ip =
          ({ g with queries := { g.queries with buf := g.queries.buf ++ [newQuery ip] } },
            .ok (newQuery ip)) := by
        simp [Geo.Query, Chan.trySend, hcap, hfull]
      have := ih { g with queries := { g.queries with buf := g.queries.buf ++ [newQuery ip] } }
        hcap (by simp; omega)
      simp only [submitAll, hq, this]
      obtain ⟨m, hm⟩ : ∃ m, 1024 - g.queries.buf.length = m + 1 :=
        ⟨1023 - g.queries.buf.length, by omega⟩
      have hm' : 1024 - (g.queries.buf ++ [newQuery ip] : List (Query I S P)).length = m := by
        simp; omega
      rw [hm, hm']
      simp
    · have hq : g.Query ip = (g, .error ErrRequestTimeout) := by
        simp [Geo.Query, Chan.trySend, hcap, hfull]
      have := ih g hcap hlen
      simp only [submitAll, hq, this]
      have h0 : 1024 - g.queries.buf.length = 0 := by omega
      simp [h0]

/-- C9: `Query` never blocks. With fewer than 1024 pending queries it appends a new valid
query for the address to the queue and returns it; with 1024 pending queries it returns
`ErrRequestTimeout` and leaves the service unchanged. From a fresh service with nothing
receiving, submissions 1 to 1024 succeed and every later one fails. -/
theorem Query_bounded (g : Geo I T R S P) (ip : I) (hcap : g.queries.cap = 1024) :
    (g.queries.buf.length < 1024 →
      g.Query ip =
        ({ g with queries := { g.queries with buf := g.queries.buf ++ [newQuery ip] } },
          .ok (newQuery ip)) ∧
      (newQuery ip : Query I S P).ip = ip ∧ (newQuery ip : Query I S P).valid = true) ∧
    (g.queries.buf.length = 1024 → g.Query ip = (g, .error ErrRequestTimeout)) ∧
    (∀ (cfg : Config) (ips : List I),
      (submitAll (StartGeo cfg : Geo I T R S P) ips).2 =
        (ips.take 1024).map (fun ip => .ok (newQuery ip)) ++
        (ips.drop 1024).map (fun _ => .error ErrRequestTimeout)) := by
  refine ⟨?_, ?_, ?_⟩
  · intro h
    refine ⟨?_, rfl, rfl⟩
    simp [Geo.Query, Chan.trySend, hcap, h]
  · intro h
    simp [Geo.Query, Chan.trySend, hcap, h]
  · intro cfg ips
    have := submitAll_from (StartGeo cfg : Geo I T R S P) rfl ips (by simp [StartGeo, makeChan])
    simpa [StartGeo, makeChan] using this

theorem Query_bounded_witness :
    (StartGeo sampleConfig : Geo GoString GoString Nat GoString Unit).queries.cap = 1024 ∧
    ((StartGeo sampleConfig : Geo GoString GoString Nat GoString Unit).Query
        "8.8.8.8".toList).2 = .ok (newQuery "8.8.8.8".toList) := by
  refine ⟨rfl, ?_⟩
  have h := (Query_bounded (StartGeo sampleConfig : Geo GoString GoString Nat GoString Unit)
    "8.8.8.8".toList rfl).1 (by decide)
  rw [h.1]

end QueryProofs

/-! ## Delivery of a new Tor hash -/

section DeliveryProofs

variable {I T R S P : Type}

theorem publishTorHash_of_empty (g : Geo I T R S P) (hcap : g.newtordb.cap = 1)
    (hbuf : g.newtordb.buf = []) (h : TorHash I T) :
    publishTorHash g h = { g with newtordb := { buf := [h], cap := 1 } } := by
  simp [publishTorHash, Chan.trySend, hcap, hbuf]

theorem publishTorHash_of_pending (g : Geo I T R S P) (hcap : g.newtordb.cap = 1)
    (p : TorHash I T) (hbuf : g.newtordb.buf = [p]) (h : TorHash I T) :
    publishTorHash g h = g := by
  simp [publishTorHash, Chan.trySend, hcap, hbuf]

theorem foldl_publishTorHash_of_pending (g : Geo I T R S P) (hcap : g.newtordb.cap = 1)
    (p : TorHash I T) (hbuf : g.newtordb.buf = [p]) (hs : List (TorHash I T)) :
    hs.foldl publishTorHash g = g := by
  induction hs with
  | nil => rfl
  | cons h hs ih => rw [List.foldl_cons, publishTorHash_of_pending g hcap p hbuf h, ih]

/-- C10, as stated, fails: two hashes are published while the owner takes none; the
owner then installs the first one, and the most recently published one is lost. -/
theorem newest_delivery_is_dropped :
    olderHash ≠ newerHash ∧
    (geolistenNewTor
        (publishTorHash (publishTorHash
          (StartGeo sampleConfig : Geo GoString GoString Nat GoString Unit) olderHash)
          newerHash)).map (fun g => g.tordb) = some (some olderHash) := by
  constructor
  · intro h
    have hcnt : olderHash.Len = newerHash.Len := congrArg TorHash.Len h
    revert hcnt
    decide
  · rw [publishTorHash_of_empty (StartGeo sampleConfig) rfl rfl olderHash,
      publishTorHash_of_pending _ rfl olderHash rfl newerHash]
    rfl

/-- C10, amended: in the single-slot delivery the first pending index wins. Of the
indexes published while the owner consumes none, the owner next takes and installs the
earliest one (the one already pending, if any); every later one is dropped, and the slot is
empty afterwards. -/
theorem first_pending_delivery_wins (g : Geo I T R S P) (hcap : g.newtordb.cap = 1) :
    (g.newtordb.buf = [] → ∀ (h : TorHash I T) (rest : List (TorHash I T)),
      geolistenNewTor ((h :: rest).foldl publishTorHash g) =
        some { g with tordb := some h, newtordb := { buf := [], cap := 1 } }) ∧
    (∀ p : TorHash I T, g.newtordb.buf = [p] → ∀ hs : List (TorHash I T),
      geolistenNewTor (hs.foldl publishTorHash g) =
        some { g with tordb := some p, newtordb := { buf := [], cap := 1 } }) := by
  constructor
  · intro hbuf h rest
    rw [List.foldl_cons, publishTorHash_of_empty g hcap hbuf h,
      foldl_publishTorHash_of_pending _ rfl h rfl rest]
    rfl
  · intro p hbuf hs
    rw [foldl_publishTorHash_of_pending g hcap p hbuf hs]
    simp [geolistenNewTor, Chan.recv, hbuf, hcap]

theorem first_pending_delivery_wins_witness :
    (StartGeo sampleConfig : Geo GoString GoString Nat GoString Unit).newtordb.cap = 1 ∧
    geolistenNewTor ([olderHash, newerHash].foldl publishTorHash
        (StartGeo sampleConfig : Geo GoString GoString Nat GoString Unit)) =
      some { (StartGeo sampleConfig : Geo GoString GoString Nat GoString Unit) with
             tordb := some olderHash, newtordb := { buf := [], cap := 1 } } :=
  ⟨rfl, (first_pending_delivery_wins
    (StartGeo sampleConfig : Geo GoString GoString Nat GoString Unit) rfl).1 rfl
      olderHash [newerHash]⟩

end DeliveryProofs

/-! ## Localized names -/

section LocationProofs

variable {I T R S P : Type}

theorem shouldIncludeSubdivision_iff (iso : GoString) :
    shouldIncludeSubdivision iso = true ↔ iso ∈ subdivisionCountries := by
  unfold shouldIncludeSubdivision subdivisionCountries
  simp only [List.mem_cons, List.mem_singleton, List.not_mem_nil, or_false]
  split_ifs with h
  · simpa using h
  · simpa using h

theorem join_pieces (city sub country : GoString) :
    (if city ≠ [] then city ++ ", ".toList ++
        (if sub ≠ [] then sub ++ ", ".toList ++ country else country)
      else (if sub ≠ [] then sub ++ ", ".toList ++ country else country)) =
    List.intercalate ", ".toList (([city, sub].filter (fun x => x ≠ [])) ++ [country]) := by
  by_cases hc : city = [] <;> by_cases hs : sub = [] <;>
    simp [hc, hs, List.filter_cons, List.intercalate, List.intersperse]

theorem localizedLocation_eq_spec (record : CityRecord P) (lang country : GoString) :
    localizedLocation record lang country = specLocation record lang country := by
  have hcity : (match record.City.Names.lookup lang with
      | some c => c
      | none =>
        match record.City.Names.lookup "en".toList with
        | some c => c
        | none => []) = specCityName record lang := by
    unfold specCityName
    cases record.City.Names.lookup lang <;> cases record.City.Names.lookup "en".toList <;> rfl
  have hsub : (if shouldIncludeSubdivision record.Country.ISOCode ∧
        record.Subdivisions.length > 0 then
      match record.Subdivisions.head? with
      | none => []
      | some first =>
        match first.Names.lookup lang with
        | some sub => sub
        | none =>
          match first.Names.lookup "en".toList with
          | some sub => sub
          | none => []
      else []) = specSubdivision record lang := by
    unfold specSubdivision
    simp only [shouldIncludeSubdivision_iff]
    by_cases hiso : record.Country.ISOCode ∈ subdivisionCountries
    · cases hs : record.Subdivisions with
      | nil => simp [hiso]
      | cons first rest =>
        simp only [hiso, List.length_cons, List.head?_cons, if_true, true_and,
          gt_iff_lt, Nat.zero_lt_succ]
        cases first.Names.lookup lang <;> cases first.Names.lookup "en".toList <;> rfl
    · simp [hiso]
  unfold localizedLocation specLocation
  simp only []
  rw [hcity, hsub]
  exact join_pieces _ _ _

theorem lookup_foldl_insert_entries (f : GoString → GoString → GoString)
    (es : List (Sigma fun _ : GoString => GoString)) (hnd : es.NodupKeys)
    (m : GoMap GoString) (k : GoString) :
    (es.foldl (fun m e => m.insert e.1 (f e.1 e.2)) m).lookup k =
      match es.dlookup k with
      | some v => some (f k v)
      | none => m.lookup k := by
  induction es generalizing m with
  | nil => simp
  | cons e es ih =>
    obtain ⟨hnot, hnd'⟩ := List.nodupKeys_cons.mp hnd
    rw [List.foldl_cons, ih hnd']
    obtain ⟨a, b⟩ := e
    by_cases hk : a = k
    · subst hk
      rw [List.dlookup_cons_eq, List.dlookup_eq_none.mpr hnot]
      exact AList.lookup_insert _
    · rw [List.dlookup_cons_ne _ _ (Ne.symm hk)]
      cases es.dlookup k with
      | some v => rfl
      | none => exact AList.lookup_insert_ne (Ne.symm hk)

/-- The entries of `LocationI18n`: none without an "en" country name, otherwise one for
every locale of the country-name table. -/
theorem locationI18n_lookup (record : CityRecord P) (lang : GoString) :
    (locationI18n record).lookup lang =
      match record.Country.Names.lookup "en".toList with
      | none => none
      | some _ => (record.Country.Names.lookup lang).map (localizedLocation record lang) := by
  unfold locationI18n
  cases hen : record.Country.Names.lookup "en".toList with
  | none => simp
  | some c =>
    simp only []
    rw [lookup_foldl_insert_entries (localizedLocation record) _
      record.Country.Names.nodupKeys]
    change _ = Option.map _ (record.Country.Names.entries.dlookup lang)
    cases record.Country.Names.entries.dlookup lang <;> simp

/-- After a city lookup without error `doQuery` appends one response without error to
the slot, and its `LocationI18n` is the map the loop builds. -/
theorem doQuery_ok_response (D : Mmdb I R S P) (L : Lib I T) (q q' : Query I S P)
    (citydb ispdb : R) (tordb : Option (TorHash I T)) (record : CityRecord P)
    (hcity : D.LookupCity citydb q.ip = .ok record)
    (hq : doQuery D L q citydb ispdb tordb = .ok q') :
    ∃ loc, q'.resp.buf = q.resp.buf ++ [{ response := some loc, err := none }] ∧
      loc.LocationI18n = locationI18n record := by
  unfold doQuery at hq
  simp only [hcity] at hq
  cases tordb with
  | none =>
    simp only [Chan.trySend] at hq
    split_ifs at hq with hroom
    simp only [Except.ok.injEq] at hq
    subst hq
    exact ⟨_, rfl, rfl⟩
  | some t =>
    simp only [] at hq
    rcases hex : t.Exists L q.ip with ⟨nodeid, present⟩
    rw [hex] at hq
    cases present <;>
    · simp only [Chan.trySend] at hq
      split_ifs at hq with hroom
      simp only [Except.ok.injEq] at hq
      subst hq
      exact ⟨_, rfl, rfl⟩

/-- With room in the response slot, `doQuery` returns after a city lookup without
error. -/
theorem doQuery_returns (D : Mmdb I R S P) (L : Lib I T) (q : Query I S P)
    (citydb ispdb : R) (tordb : Option (TorHash I T)) (record : CityRecord P)
    (hcity : D.LookupCity citydb q.ip = .ok record)
    (hroom : q.resp.buf.length < q.resp.cap) :
    ∃ q', doQuery D L q citydb ispdb tordb = .ok q' := by
  unfold doQuery
  simp only [hcity]
  cases tordb with
  | none => simp [Chan.trySend, hroom]
  | some t =>
    simp only []
    rcases hex : t.Exists L q.ip with ⟨nodeid, present⟩
    cases present <;> simp [Chan.trySend, hroom]

/-- C7: after a city lookup without error, every entry `doQuery` stores in
`LocationI18n` for a locale is the city name, the subdivision name and the country name
of that locale joined by ", " in that order, an empty city or subdivision left out; the
country name is the country-name table's value for the locale, and city and subdivision
are chosen as `specCityName` and `specSubdivision` say. -/
theorem doQuery_location_entries (D : Mmdb I R S P) (L : Lib I T) (q : Query I S P)
    (citydb ispdb : R) (tordb : Option (TorHash I T)) (record : CityRecord P)
    (hcity : D.LookupCity citydb q.ip = .ok record)
    (hroom : q.resp.buf.length < q.resp.cap) :
    ∃ q' loc, doQuery D L q citydb ispdb tordb = .ok q' ∧
      q'.resp.buf = q.resp.buf ++ [{ response := some loc, err := none }] ∧
      ∀ lang entry, loc.LocationI18n.lookup lang = some entry →
        ∃ country, record.Country.Names.lookup lang = some country ∧
          entry = specLocation record lang country := by
  obtain ⟨q', hq⟩ := doQuery_returns D L q citydb ispdb tordb record hcity hroom
  obtain ⟨loc, hbuf, hloc⟩ := doQuery_ok_response D L q q' citydb ispdb tordb record hcity hq
  refine ⟨q', loc, hq, hbuf, ?_⟩
  intro lang entry hentry
  rw [hloc, locationI18n_lookup] at hentry
  cases hen : record.Country.Names.lookup "en".toList with
  | none =>
    rw [hen] at hentry
    exact absurd hentry (by simp)
  | some c =>
    rw [hen] at hentry
    cases hl : record.Country.Names.lookup lang with
    | none =>
      rw [hl] at hentry
      exact absurd hentry (by simp)
    | some country =>
      refine ⟨country, rfl, ?_⟩
      rw [hl] at hentry
      simp only [Option.map_some', Option.some.injEq] at hentry
      rw [← hentry, localizedLocation_eq_spec]

theorem doQuery_location_entries_witness :
    sampleDb.LookupCity () (sampleQuery "8.8.8.8".toList).ip = .ok sampleRecord ∧
    (sampleQuery "8.8.8.8".toList).resp.buf.length < (sampleQuery "8.8.8.8".toList).resp.cap ∧
    (locationI18n sampleRecord).lookup "fr".toList =
      some "Chicago, Illinois, Etats-Unis".toList ∧
    ∃ q' loc, doQuery sampleDb textLib (sampleQuery "8.8.8.8".toList) () () (some newerHash) =
        .ok q' ∧
      q'.resp.buf = (sampleQuery "8.8.8.8".toList).resp.buf ++
        [{ response := some loc, err := none }] ∧
      ∀ lang entry, loc.LocationI18n.lookup lang = some entry →
        ∃ country, sampleRecord.Country.Names.lookup lang = some country ∧
          entry = specLocation sampleRecord lang country :=
  ⟨rfl, by decide, by decide,
    doQuery_location_entries sampleDb textLib (sampleQuery "8.8.8.8".toList) () ()
      (some newerHash) sampleRecord rfl (by decide)⟩

/-- C8, as stated, fails: the country-name table of the record has a "fr" entry and no
"en" entry, and the response has no entry for "fr". -/
theorem doQuery_locales_need_en :
    sampleDb.LookupCity () (sampleQuery "2.2.2.2".toList).ip = .ok frenchOnlyRecord ∧
    frenchOnlyRecord.Country.Names.lookup "fr".toList = some "France".toList ∧
    ∃ q' loc, doQuery sampleDb textLib (sampleQuery "2.2.2.2".toList) () () none = .ok q' ∧
      q'.resp.buf = [{ response := some loc, err := none }] ∧
      loc.LocationI18n.lookup "fr".toList = none := by
  refine ⟨rfl, by decide, ?_⟩
  obtain ⟨q', hq⟩ := doQuery_returns sampleDb textLib (sampleQuery "2.2.2.2".toList) () ()
    none frenchOnlyRecord rfl (by decide)
  obtain ⟨loc, hbuf, hloc⟩ := doQuery_ok_response sampleDb textLib
    (sampleQuery "2.2.2.2".toList) q' () () none frenchOnlyRecord rfl hq
  refine ⟨q', loc, hq, hbuf, ?_⟩
  rw [hloc]
  decide

/-- C8, amended: after a city lookup without error, if the country-name table has an "en"
entry the locales keyed in `LocationI18n` are exactly the locales of the country-name
table, and if it has none `LocationI18n` is empty. -/
theorem doQuery_locales (D : Mmdb I R S P) (L : Lib I T) (q : Query I S P)
    (citydb ispdb : R) (tordb : Option (TorHash I T)) (record : CityRecord P)
    (hcity : D.LookupCity citydb q.ip = .ok record)
    (hroom : q.resp.buf.length < q.resp.cap) :
    ∃ q' loc, doQuery D L q citydb ispdb tordb = .ok q' ∧
      q'.resp.buf = q.resp.buf ++ [{ response := some loc, err := none }] ∧
      ("en".toList ∈ record.Country.Names →
        ∀ lang, lang ∈ loc.LocationI18n ↔ lang ∈ record.Country.Names) ∧
      ("en".toList ∉ record.Country.Names → ∀ lang, lang ∉ loc.LocationI18n) := by
  obtain ⟨q', hq⟩ := doQuery_returns D L q citydb ispdb tordb record hcity hroom
  obtain ⟨loc, hbuf, hloc⟩ := doQuery_ok_response D L q q' citydb ispdb tordb record hcity hq
  refine ⟨q', loc, hq, hbuf, ?_, ?_⟩
  · intro hen lang
    obtain ⟨c, hc⟩ := Option.isSome_iff_exists.mp (AList.lookup_isSome.mpr hen)
    rw [← AList.lookup_isSome, ← AList.lookup_isSome, hloc, locationI18n_lookup, hc]
    simp
  · intro hen lang
    have hnone := AList.lookup_eq_none.mpr hen
    rw [← AList.lookup_eq_none, hloc, locationI18n_lookup, hnone]

theorem doQuery_locales_witness :
    sampleDb.LookupCity () (sampleQuery "8.8.8.8".toList).ip = .ok sampleRecord ∧
    (sampleQuery "8.8.8.8".toList).resp.buf.length < (sampleQuery "8.8.8.8".toList).resp.cap ∧
    ∃ q' loc, doQuery sampleDb textLib (sampleQuery "8.8.8.8".toList) () () none = .ok q' ∧
      q'.resp.buf = (sampleQuery "8.8.8.8".toList).resp.buf ++
        [{ response := some loc, err := none }] ∧
      ("en".toList ∈ sampleRecord.Country.Names →
        ∀ lang, lang ∈ loc.LocationI18n ↔ lang ∈ sampleRecord.Country.Names) ∧
      ("en".toList ∉ sampleRecord.Country.Names → ∀ lang, lang ∉ loc.LocationI18n) :=
  ⟨rfl, by decide,
    doQuery_locales sampleDb textLib (sampleQuery "8.8.8.8".toList) () () none sampleRecord
      rfl (by decide)⟩

end LocationProofs

/-! ## A cycle whose exit list does not parse -/

section CycleProofs

variable {I T R S P : Type}

/-- After a parse error the cycle publishes the empty hash; with the slot free the owner
installs it. -/
theorem torupdaterCycle_parse_error (L : Lib I T) (body : List GoString) (msg : String)
    (g : Geo I T R S P) (herr : tokenizeresponse L body = .error (.err msg))
    (hcap : g.newtordb.cap = 1) (hbuf : g.newtordb.buf = []) :
    ∃ g1, torupdaterCycle L (some body) g = .ok g1 ∧
      geolistenNewTor g1 =
        some { g with tordb := some NewTorHash, newtordb := { buf := [], cap := 1 } } := by
  refine ⟨publishTorHash g (buildTorHash L []), ?_, ?_⟩
  · simp [torupdaterCycle, herr]
  · rw [publishTorHash_of_empty g hcap hbuf]
    rfl

/-- C11: the service knows `80.82.67.166` as an exit node; a cycle fetches a body that
does not parse; once the owner has taken what the cycle delivered, its Tor index is the
empty hash and the address is no longer reported. -/
theorem parse_error_replaces_index :
    tokenizeresponse textLib malformedText =
      .error (.err "the ExitNode prefix not detected") ∧
    indexedGeo.tordb = some newerHash ∧
    newerHash.Exists textLib "80.82.67.166".toList = ("BBBB".toList, true) ∧
    ∃ g1 g2, torupdaterCycle textLib (some malformedText) indexedGeo = .ok g1 ∧
      geolistenNewTor g1 = some g2 ∧
      g2.tordb = some NewTorHash ∧
      (NewTorHash : TorHash GoString GoString).Exists textLib "80.82.67.166".toList =
        ([], false) := by
  refine ⟨rfl, rfl, by decide, ?_⟩
  obtain ⟨g1, h1, h2⟩ := torupdaterCycle_parse_error textLib malformedText
    "the ExitNode prefix not detected" indexedGeo rfl rfl rfl
  exact ⟨g1, _, h1, h2, rfl, by decide⟩

end CycleProofs

/-! ## The counter of the hash -/

section LenProofs

variable {I T : Type}

theorem wrapInt_of_range (x : Int) (h0 : 0 ≤ x) (h1 : x < 2 ^ 63) : wrapInt x = x := by
  unfold wrapInt
  norm_num at h1 ⊢
  omega

theorem cnt_foldl_insert (L : Lib I T) (n : TorNode I T) (as : List (ExitAddress I T))
    (t : TorHash I T) (h0 : 0 ≤ t.cnt) (h1 : t.cnt + as.length < 2 ^ 63) :
    (as.foldl (fun t addr =>
        ({ hash := t.hash.insert (L.IPString addr.IP) n, cnt := wrapInt (t.cnt + 1) } :
          TorHash I T)) t).cnt = t.cnt + as.length := by
  induction as generalizing t with
  | nil => simp
  | cons a as ih =>
    simp only [List.length_cons, Nat.cast_add, Nat.cast_one] at h1
    have hw : wrapInt (t.cnt + 1) = t.cnt + 1 :=
      wrapInt_of_range _ (by omega) (by omega)
    simp only [List.foldl_cons]
    rw [ih _ (by simp only [hw]; omega) (by simp only [hw]; omega)]
    simp only [hw, List.length_cons, Nat.cast_add, Nat.cast_one]
    omega

/-- `Len()` is the number of addresses passed to `Add`, repeated ones included (below
the range of `int`). -/
theorem Len_foldl_Add (L : Lib I T) (nodes : List (TorNode I T)) (t : TorHash I T)
    (h0 : 0 ≤ t.cnt)
    (h1 : t.cnt + ((nodes.map (fun n => n.Addresses.length)).sum : Nat) < 2 ^ 63) :
    (nodes.foldl (TorHash.Add L) t).Len =
      t.cnt + ((nodes.map (fun n => n.Addresses.length)).sum : Nat) := by
  induction nodes generalizing t with
  | nil => simp [TorHash.Len]
  | cons n nodes ih =>
    simp only [List.map_cons, List.sum_cons, Nat.cast_add] at h1 ⊢
    have hn : (t.Add L n).cnt = t.cnt + n.Addresses.length :=
      cnt_foldl_insert L n n.Addresses t h0 (by omega)
    simp only [List.foldl_cons]
    rw [ih _ (by rw [hn]; omega) (by rw [hn]; omega), hn]
    omega

/-- C12: the address `80.82.67.166` is listed by two of the three nodes added; the table
holds three address keys and `Len()` is four. -/
theorem Len_counts_repeated_addresses :
    newerHash = buildTorHash textLib sampleNodes ∧
    newerHash.entries = 3 ∧
    newerHash.hash.keys.Nodup ∧
    (∀ ip, (newerHash.Lookup textLib ip).isSome = true ↔ ip ∈ newerHash.hash.keys) ∧
    newerHash.Len = 4 := by
  refine ⟨rfl, by decide, newerHash.hash.keys_nodup, ?_, by decide⟩
  intro ip
  exact AList.lookup_isSome.trans AList.mem_keys

end LenProofs

/-! ## Lines with a keyword and nothing behind it -/

/-- C13: a line that carries its keyword in the expected position and lacks the bytes the
parser slices or indexes makes `tokenizeresponse` panic: a bare `ExitNode`, `Published`
or `LastStatus` line, and an `ExitAddress` line with fewer than four pieces. -/
theorem tokenizeresponse_panics :
    tokenizeresponse textLib ["ExitNode".toList] = .error .panic ∧
    tokenizeresponse textLib ["ExitNode A".toList, "Published".toList] = .error .panic ∧
    tokenizeresponse textLib
      ["ExitNode A".toList, "Published 2017-10-25 08:25:17".toList, "LastStatus".toList] =
      .error .panic ∧
    tokenizeresponse textLib
      ["ExitNode A".toList, "Published 2017-10-25 08:25:17".toList,
       "LastStatus 2017-10-25 09:03:28".toList, "ExitAddress".toList] = .error .panic ∧
    tokenizeresponse textLib
      ["ExitNode A".toList, "Published 2017-10-25 08:25:17".toList,
       "LastStatus 2017-10-25 09:03:28".toList, "ExitAddress 80.82.67.166".toList] =
      .error .panic ∧
    tokenizeresponse textLib
      ["ExitNode A".toList, "Published 2017-10-25 08:25:17".toList,
       "LastStatus 2017-10-25 09:03:28".toList,
       "ExitAddress 80.82.67.166 2017-10-25".toList] = .error .panic :=
  ⟨rfl, rfl, rfl, rfl, rfl, rfl⟩

end Geotor
